import Mathlib

/-!
Verification of the Skill generator of the markdownapi repository
(`lib/mapi-converter/src/generators/skill.ts`).

The TypeScript source is shallowly embedded: JavaScript objects become
structures / inductives with `Option` fields for possibly-`undefined`
slots, JSON values become the inductive `JsonVal`, records keyed by
strings become association lists in insertion order, and JavaScript
truthiness is made explicit by small helper functions.  Functions are
translated statement by statement from the source file; the two parser
modules (`parsers/mapi.ts`, `parsers/openapi.ts`) are not among the
provided sources, so the three helpers imported from them are modelled
from the specification and marked as such in their doc comments.
-/

namespace MapiSkill

/-! ### JavaScript string primitives -/

/-- ASCII lower-case letter, the character class `[a-z]` of the source regexes. -/
def isAsciiLower (c : Char) : Bool := 'a' ≤ c && c ≤ 'z'

/-- ASCII upper-case letter, the character class `[A-Z]` of the source regexes. -/
def isAsciiUpper (c : Char) : Bool := 'A' ≤ c && c ≤ 'Z'

/-- `String.prototype.toLowerCase` on the ASCII identifiers the generator
handles; `Char.toLower` is exactly the ASCII mapping. -/
def jsToLowerStr (s : String) : String := ⟨s.data.map Char.toLower⟩

/-- Does `needle` occur at the start of `hay`? -/
def startsWithL : List Char → List Char → Bool
  | _, [] => true
  | [], _ :: _ => false
  | a :: as, b :: bs => a == b && startsWithL as bs

/-- Does `needle` occur anywhere in `hay`?  (`String.prototype.includes`.) -/
def containsSubL : List Char → List Char → Bool
  | [], needle => needle.isEmpty
  | c :: t, needle => startsWithL (c :: t) needle || containsSubL t needle

/-- `hay.includes(needle)` on strings. -/
def containsSubstr (hay needle : String) : Bool := containsSubL hay.data needle.data

/-- `String.prototype.split(sep)` keeping empty segments, as in JavaScript. -/
def splitKeepAux (sep : Char) : List Char → List Char → List String
  | [], acc => [⟨acc.reverse⟩]
  | c :: rest, acc =>
    if c == sep then ⟨acc.reverse⟩ :: splitKeepAux sep rest []
    else splitKeepAux sep rest (c :: acc)

/-- `ref.split(sep).pop() || dflt`: the last segment of the split, with the
JavaScript falsy fallback (an empty last segment also yields `dflt`). -/
def lastSegmentOr (sep : Char) (s : String) (dflt : String) : String :=
  let last := ((splitKeepAux sep s.data []).getLast?).getD ""
  if last = "" then dflt else last

/-- JavaScript truthiness of a possibly-undefined string: defined and
non-empty. -/
def optTruthy : Option String → Bool
  | some s => s ≠ ""
  | none => false

/-- `a || b` where `a` is a possibly-undefined string and `b` a string. -/
def orElseStr (a : Option String) (b : String) : String :=
  match a with
  | some s => if s = "" then b else s
  | none => b

/-- Lookup in a JavaScript object modelled as an association list
(`record[key]`, `undefined` when absent). -/
def jsLookup {α : Type} (xs : List (String × α)) (k : String) : Option α :=
  (xs.find? (fun p => p.1 == k)).map (·.2)

/-! ### JSON values

`JsonVal` models the `unknown` JSON-ish values the example synthesiser
manipulates.  Numbers are modelled as rationals (the concrete literals of
the source — `0.7`, `1.0`, `100`, `1024` — are exact in `ℚ`). -/

inductive JsonVal where
  | null : JsonVal
  | bool : Bool → JsonVal
  | num : ℚ → JsonVal
  | str : String → JsonVal
  | arr : List JsonVal → JsonVal
  | obj : List (String × JsonVal) → JsonVal

/-- JavaScript truthiness of a `JsonVal` (objects and arrays are always
truthy; `null`, `false`, `0` and `""` are falsy). -/
def jsTruthy : JsonVal → Bool
  | .null => false
  | .bool b => b
  | .num q => q ≠ 0
  | .str s => s ≠ ""
  | .arr _ => true
  | .obj _ => true

/-- The `propExample !== null` test of the source. -/
def jsIsNull : JsonVal → Bool
  | .null => true
  | _ => false

/-- `Object.keys(v).length` as JavaScript computes it on each shape of
value: object keys, array indices, string indices, nothing otherwise. -/
def jsKeysLen : JsonVal → Nat
  | .obj fs => fs.length
  | .arr xs => xs.length
  | .str s => s.length
  | _ => 0

/-! ### Schema nodes

`OpenApiSchema` is a recursive record, hence an inductive with one
constructor; field order: `$ref`, `type`, `properties`, `required`,
`items`, `enum`, `format`, `description`, `example`, `minimum`. -/

inductive OpenApiSchema where
  | mk :
      (ref : Option String) →
      (type : Option String) →
      (properties : Option (List (String × OpenApiSchema))) →
      (required : Option (List String)) →
      (items : Option OpenApiSchema) →
      (enum : Option (List JsonVal)) →
      (format : Option String) →
      (description : Option String) →
      (exampleVal : Option JsonVal) →
      (minimum : Option ℚ) →
      OpenApiSchema

def OpenApiSchema.ref : OpenApiSchema → Option String
  | ⟨r, _, _, _, _, _, _, _, _, _⟩ => r

def OpenApiSchema.type : OpenApiSchema → Option String
  | ⟨_, t, _, _, _, _, _, _, _, _⟩ => t

def OpenApiSchema.properties : OpenApiSchema → Option (List (String × OpenApiSchema))
  | ⟨_, _, p, _, _, _, _, _, _, _⟩ => p

def OpenApiSchema.required : OpenApiSchema → Option (List String)
  | ⟨_, _, _, r, _, _, _, _, _, _⟩ => r

def OpenApiSchema.items : OpenApiSchema → Option OpenApiSchema
  | ⟨_, _, _, _, i, _, _, _, _, _⟩ => i

def OpenApiSchema.enum : OpenApiSchema → Option (List JsonVal)
  | ⟨_, _, _, _, _, e, _, _, _, _⟩ => e

def OpenApiSchema.format : OpenApiSchema → Option String
  | ⟨_, _, _, _, _, _, f, _, _, _⟩ => f

def OpenApiSchema.description : OpenApiSchema → Option String
  | ⟨_, _, _, _, _, _, _, d, _, _⟩ => d

def OpenApiSchema.exampleVal : OpenApiSchema → Option JsonVal
  | ⟨_, _, _, _, _, _, _, _, e, _⟩ => e

def OpenApiSchema.minimum : OpenApiSchema → Option ℚ
  | ⟨_, _, _, _, _, _, _, _, _, m⟩ => m

/-! ### Example synthesis (`generateExampleFromSchema`, skill.ts 711-795) -/

/-- The primitive `switch (schema.type)` of `generateExampleFromSchema`
(skill.ts 763-794): format-aware string literals, then name-keyed
heuristics guarded by `if (propName)`, then the per-kind defaults. -/
def genPrimitive (schema : OpenApiSchema) (propName : Option String) : JsonVal :=
  match schema.type with
  | some "string" =>
    if schema.format == some "date-time" then .str "2024-01-15T12:00:00Z"
    else if schema.format == some "date" then .str "2024-01-15"
    else if schema.format == some "email" then .str "user@example.com"
    else if schema.format == some "uri" then .str "https://example.com"
    else
      match propName with
      | some n =>
        if n = "" then .str "string"  -- `if (propName)`: empty string is falsy
        else
          let lower := jsToLowerStr n
          if lower = "role" then .str "user"
          else if lower = "content" || lower = "text" then .str "Hello, how are you?"
          else if lower = "id" then .str "msg_01XYZ"
          else if lower = "name" then .str "example"
          else if lower = "description" then .str "A sample description"
          else .str "string"
      | none => .str "string"
  | some "integer" =>
    let dflt : JsonVal :=
      match schema.minimum with
      | some m => .num m
      | none => .num 100
    (match propName with
     | some n =>
       if n = "" then dflt
       else
         let lower := jsToLowerStr n
         if containsSubstr lower "token" then .num 1024
         else if lower = "max_tokens" then .num 1024
         else dflt
     | none => dflt)
  | some "number" =>
    let dflt : JsonVal :=
      match schema.minimum with
      | some m => .num m
      | none => .num 1
    (match propName with
     | some n => if jsToLowerStr n = "temperature" then .num (7 / 10) else dflt
     | none => dflt)
  | some "boolean" => .bool true
  | _ => .null

/-- The property loop of the object branch (skill.ts 748-758): walk the
`properties` entries in order, admitting a field when it is required or
fewer than 5 fields have been accumulated, and dropping fields whose
synthesised value is `null`.  The synthesis of a single value is passed
in as `g` (it is `generateExampleFromSchema` at `depth + 1`). -/
def genPropsWith (g : OpenApiSchema → Option String → JsonVal) (required : List String) :
    List (String × OpenApiSchema) → List (String × JsonVal) → List (String × JsonVal)
  | [], acc => acc
  | (name, ps) :: rest, acc =>
    if required.contains name || acc.length < 5 then
      let v := g ps (some name)
      if jsIsNull v then genPropsWith g required rest acc
      else genPropsWith g required rest (acc ++ [(name, v)])
    else genPropsWith g required rest acc

/-- The body of `generateExampleFromSchema`.  Every recursive call of the
source increments `depth` and the source returns `null` as soon as
`depth > 3`, so the recursion depth from any call is at most 5; the extra
`fuel` argument (always instantiated with 5, see
`generateExampleFromSchema`) gives Lean a structurally decreasing
argument and is semantically inert (`genAux_fuel`). -/
def genAux : Nat → OpenApiSchema → List (String × OpenApiSchema) → Nat → Option String → JsonVal
  | 0, _, _, _, _ => .null
  | fuel + 1, schema, schemas, depth, propName =>
    if depth > 3 then .null  -- Prevent infinite recursion
    else
      match schema.exampleVal with
      | some e => e  -- use provided example if available
      | none =>
        match schema.ref with
        | some r =>
          -- resolve $ref: the last segment of the reference path, empty fallback
          let refName := lastSegmentOr '/' r ""
          match jsLookup schemas refName with
          | some resolved => genAux fuel resolved schemas (depth + 1) (some refName)
          | none => .obj []  -- unresolvable reference: `return {}`
        | none =>
          match schema.enum with
          | some (e :: _) => e  -- enum: use first value
          | _ =>
            if schema.type == some "array" && schema.items.isSome then
              match schema.items with
              | some it =>
                let itemExample := genAux fuel it schemas (depth + 1) none
                -- `itemExample ? [itemExample] : []` (JS truthiness)
                if jsTruthy itemExample then .arr [itemExample] else .arr []
              | none => .null  -- unreachable: branch guarded by `schema.items.isSome`
            else if schema.type == some "object" || schema.properties.isSome then
              match schema.properties with
              | some props =>
                .obj (genPropsWith
                  (fun ps pn => genAux fuel ps schemas (depth + 1) pn)
                  (schema.required.getD []) props [])
              | none => .obj []  -- `const obj = {}` with no properties loop
            else genPrimitive schema propName

/-- `generateExampleFromSchema(schema, schemas, depth = 0, propName?)`
(skill.ts 711-795). -/
def generateExampleFromSchema (schema : OpenApiSchema)
    (schemas : List (String × OpenApiSchema))
    (depth : Nat := 0) (propName : Option String := none) : JsonVal :=
  genAux 5 schema schemas depth propName

/-! ### Operation-id normalisation (`normalizeOperationId`, skill.ts 408-422) -/

/-- One pass of the global regex replace
`replace(/([a-z])([A-Z])/g, ...)` inserting a dot boundary: a dot is inserted between every
lower-case character directly followed by an upper-case one (matches of
the two-character pattern cannot overlap, since the first character of a
match is lower-case and the second upper-case). -/
def insertCamelDotsL : List Char → List Char
  | c₁ :: c₂ :: rest =>
    if isAsciiLower c₁ && isAsciiUpper c₂ then c₁ :: '.' :: insertCamelDotsL (c₂ :: rest)
    else c₁ :: insertCamelDotsL (c₂ :: rest)
  | l => l

/-- The non-global single-underscore replace: only the first underscore becomes
a dot. -/
def replaceFirstUnderscoreL : List Char → List Char
  | [] => []
  | c :: rest => if c == '_' then '.' :: rest else c :: replaceFirstUnderscoreL rest

/-- `normalizeOperationId` (skill.ts 408-422). -/
def normalizeOperationId (operationId : String) : String :=
  if operationId.data.contains '.' then jsToLowerStr operationId
  else ⟨replaceFirstUnderscoreL ((insertCamelDotsL operationId.data).map Char.toLower)⟩

/-! ### Rendering of numbers and JSON text

JavaScript prints numbers in their shortest decimal form (`0.7`, `1`,
`1024`); `ratToJs` reproduces that for the rationals that arise from the
literals and schema minimums of the source. -/

/-- Smallest exponent `k ≤ 30` with `den ∣ 10 ^ k`, if any. -/
def pow10Exp (den : Nat) : Option Nat :=
  (List.range 31).find? (fun k => 10 ^ k % den = 0)

/-- Left-pad a numeral string with zeros to the given width. -/
def padZeros (s : String) (width : Nat) : String :=
  ⟨List.replicate (width - s.length) '0'⟩ ++ s

/-- Shortest-decimal rendering of a rational, matching how JavaScript
prints the numbers that occur in generated examples. -/
def ratToJs (q : ℚ) : String :=
  let sign := if q.num < 0 then "-" else ""
  let n := q.num.natAbs
  if q.den = 1 then sign ++ toString n
  else
    match pow10Exp q.den with
    | some k =>
      let scaled := n * (10 ^ k / q.den)
      let ip := scaled / 10 ^ k
      let fp := scaled % 10 ^ k
      sign ++ toString ip ++ "." ++ padZeros (toString fp) k
    | none => sign ++ toString n ++ "/" ++ toString q.den  -- never reached by the literals used

/-- Template-literal conversion of a JSON value (the `${e}` in the source:
strings verbatim, numbers in decimal form, arrays joined with commas,
objects as `[object Object]`). -/
def jsTemplate : JsonVal → String
  | .null => "null"
  | .bool b => if b then "true" else "false"
  | .num q => ratToJs q
  | .str s => s
  | .arr xs => String.intercalate "," (xs.attach.map (fun x => jsTemplate x.1))
  | .obj _ => "[object Object]"
termination_by v => sizeOf v
decreasing_by
  have h := List.sizeOf_lt_of_mem x.2
  simp_wf
  omega

/-- Escape a string for inclusion in a JSON document (the generated
examples contain no control characters beyond these). -/
def escapeJson (s : String) : String :=
  ⟨s.data.flatMap (fun c =>
    if c == '"' then ['\\', '"']
    else if c == '\\' then ['\\', '\\']
    else if c == '\n' then ['\\', 'n']
    else [c])⟩

/-- Two-space indentation prefix for nesting level `n`. -/
def jsonIndent (n : Nat) : String := ⟨List.replicate (2 * n) ' '⟩

/-- `JSON.stringify(v, null, 2)` at nesting level `lvl`. -/
def jsonStringifyAux : JsonVal → Nat → String
  | .null, _ => "null"
  | .bool b, _ => if b then "true" else "false"
  | .num q, _ => ratToJs q
  | .str s, _ => "\"" ++ escapeJson s ++ "\""
  | .arr [], _ => "[]"
  | .arr xs, lvl =>
    "[\n"
      ++ String.intercalate ",\n"
           (xs.attach.map (fun x => jsonIndent (lvl + 1) ++ jsonStringifyAux x.1 (lvl + 1)))
      ++ "\n" ++ jsonIndent lvl ++ "]"
  | .obj [], _ => "\x7b\x7d"
  | .obj fs, lvl =>
    "\x7b\n"
      ++ String.intercalate ",\n"
           (fs.attach.map (fun f =>
             jsonIndent (lvl + 1) ++ "\"" ++ escapeJson f.1.1 ++ "\": "
               ++ jsonStringifyAux f.1.2 (lvl + 1)))
      ++ "\n" ++ jsonIndent lvl ++ "\x7d"
termination_by v _ => sizeOf v
decreasing_by
  · have h := List.sizeOf_lt_of_mem x.2
    simp_wf
    omega
  · have h := List.sizeOf_lt_of_mem f.2
    obtain ⟨⟨a, b⟩, hf⟩ := f
    simp_wf
    simp only [Prod.mk.sizeOf_spec] at h
    omega

/-- `JSON.stringify(example, null, 2)` (skill.ts 686, 701). -/
def jsonStringify (v : JsonVal) : String := jsonStringifyAux v 0

/-! ### Display types (`getTypeDescription`, skill.ts 581-613) -/

/-- The `{ type, description? }` record returned by `getTypeDescription`. -/
structure TypeDesc where
  type : String
  description : Option String
  deriving DecidableEq

/-- The elaboration text for an enumeration:
```One of: `a`, `b` ``` (skill.ts 590, 599). -/
def enumElaboration (es : List JsonVal) : String :=
  "One of: " ++ String.intercalate ", " (es.map (fun e => "`" ++ jsTemplate e ++ "`"))

/-- `getTypeDescription` on a present schema node (skill.ts 584-612).
The source destructures by cases: `$ref` (one-level lookup, reporting the
target enum or the reference name), own enum, array (recursing on the
item), object, primitive with `string` fallback. -/
def getTypeDescriptionS : OpenApiSchema → List (String × OpenApiSchema) → TypeDesc
  | ⟨ref, ty, props, _req, items, en, _fmt, _desc, _ex, _min⟩, schemas =>
    match ref with
    | some r =>
      let refName := lastSegmentOr '/' r "object"  -- last reference segment, `object` fallback
      (match jsLookup schemas refName with
       | some resolved =>
         (match resolved.enum with  -- `resolvedSchema?.enum` (any defined array is truthy)
          | some es => ⟨"string", some (enumElaboration es)⟩
          | none => ⟨refName, none⟩)
       | none => ⟨refName, none⟩)
    | none =>
      match en with
      | some es => ⟨"string", some (enumElaboration es)⟩
      | none =>
        if ty == some "array" && items.isSome then
          match items with
          | some it =>
            let itemType := getTypeDescriptionS it schemas
            ⟨"array of " ++ itemType.type, itemType.description⟩
          | none => ⟨"string", none⟩  -- unreachable: guarded by `items.isSome`
        else if ty == some "object" || props.isSome then ⟨"object", none⟩
        else ⟨orElseStr ty "string", none⟩  -- `schema.type` with `string` fallback

/-- `getTypeDescription(schema, schemas)` with the `!schema` default
(skill.ts 582). -/
def getTypeDescription (schema : Option OpenApiSchema)
    (schemas : List (String × OpenApiSchema)) : TypeDesc :=
  match schema with
  | none => ⟨"string", none⟩
  | some s => getTypeDescriptionS s schemas

/-! ### The parsed-document data model (types.ts shapes used by skill.ts) -/

/-- Metadata of one MAPI capability (`cap.meta`). -/
structure ParsedCapabilityMeta where
  id : String
  transport : String
  auth : Option String
  idempotent : Option Bool
  deprecated : Option String
  deriving DecidableEq

/-- One parsed MAPI capability. -/
structure ParsedCapability where
  meta : ParsedCapabilityMeta
  name : String
  intention : Option String
  authIntention : Option String
  input : Option String
  output : Option String
  logicConstraints : Option String
  errors : Option String
  exampleText : Option String
  rawContent : Option String
  deriving DecidableEq

/-- The open `meta` record of a MAPI document; the keys the generator
reads.  `auth_scopes` is modelled as a string list (the source wraps a
single string into a one-element array before rendering). -/
structure MapiMeta where
  version : Option String
  base_url : Option String
  auth : Option String
  auth_header : Option String
  auth_flow : Option String
  auth_scopes : Option (List String)
  auth_docs_url : Option String
  deriving DecidableEq

/-- A parsed MAPI document. -/
structure ParsedMapiDocument where
  title : String
  description : Option String
  meta : MapiMeta
  globalTypes : Option String
  capabilities : List ParsedCapability

/-- One `parameters` entry of an OpenAPI operation (`in` is renamed to
`location`, `in` being a Lean keyword). -/
structure OpenApiParam where
  name : String
  location : String
  required : Option Bool
  schema : Option OpenApiSchema
  description : Option String

/-- One content-type entry of a request body or response. -/
structure MediaObj where
  schema : Option OpenApiSchema

/-- A response object (content keyed by content type). -/
structure ResponseObj where
  content : List (String × MediaObj)
  description : Option String

/-- A request body (content keyed by content type, `required` flag). -/
structure RequestBody where
  content : List (String × MediaObj)
  required : Option Bool

/-- The auth descriptor of a parsed OpenAPI document. -/
structure AuthDescriptor where
  type : String
  flows : Option (List String)

/-- One flattened OpenAPI operation.  The entries of the `security`
requirement list are opaque to the generator (only their number is ever
read), so they are modelled as strings. -/
structure ParsedOpenApiOperation where
  operationId : String
  method : String
  path : String
  summary : Option String
  description : Option String
  parameters : List OpenApiParam
  requestBody : Option RequestBody
  responses : List (String × ResponseObj)
  security : Option (List String)

/-- A parsed OpenAPI document. -/
structure ParsedOpenApiDocument where
  title : String
  description : Option String
  version : Option String
  baseUrl : Option String
  auth : Option AuthDescriptor
  schemas : List (String × OpenApiSchema)
  operations : List ParsedOpenApiOperation

/-- One row of the capability index. -/
structure CapabilityIndexEntry where
  id : String
  intentKeywords : List String
  filePath : String
  dependencies : List String
  deriving DecidableEq

/-- The generated artifact set (`SkillOutput`): index body, common files,
capability files, keyed by relative path in insertion order. -/
structure SkillOutput where
  skillMd : String
  common : List (String × String)
  capabilities : List (String × String)

/-- Generation options.  The external keyword provider is modelled as a
pure function (the claim set only considers a deterministic stub). -/
structure ConvertOptions where
  apiName : Option String := none
  intentGenerator : Option (String → String → List String) := none

/-! ### Helpers imported from the parser modules (not among the sources) -/

/-- Split a string into its non-empty whitespace-separated words. -/
def splitWordsAux : List Char → List Char → List String
  | [], acc => if acc.isEmpty then [] else [⟨acc.reverse⟩]
  | c :: rest, acc =>
    if c == ' ' then
      if acc.isEmpty then splitWordsAux rest [] else ⟨acc.reverse⟩ :: splitWordsAux rest []
    else splitWordsAux rest (c :: acc)

/-- Modelled from the spec: `extractIntentKeywords` lives in
`parsers/mapi.ts`, which is not among the provided sources.  Per spec
§4.3 it is a pure, deterministic function from a description text and a
capability id to an ordered keyword list; it is modelled here as the
first five lower-cased words of the text. -/
def extractIntentKeywords (text : String) (_id : String) : List String :=
  (splitWordsAux (jsToLowerStr text).data []).take 5

/-- Modelled from the spec: `extractOpenApiIntentKeywords` lives in
`parsers/openapi.ts`, which is not among the provided sources.  Per
spec §4.3 it deterministically derives keywords from the description,
summary or identifier of the operation. -/
def extractOpenApiIntentKeywords (op : ParsedOpenApiOperation) : List String :=
  extractIntentKeywords (orElseStr op.description (orElseStr op.summary op.operationId))
    op.operationId

/-- A one-level display type for `schemaToTypeScript` below. -/
def tsTypeName (s : OpenApiSchema) : String :=
  match s.ref with
  | some r => lastSegmentOr '/' r "object"
  | none =>
    match s.type with
    | some "array" =>
      (match s.items with
       | some it =>
         (match it.ref with
          | some r => lastSegmentOr '/' r "object"
          | none => (it.type).getD "unknown") ++ "[]"
       | none => "unknown[]")
    | some t => t
    | none => "unknown"

/-- Modelled from the spec: `schemaToTypeScript` lives in
`parsers/openapi.ts`, which is not among the provided sources.  Per spec
§4.5 step 2 it renders a named schema as TypeScript text, interfaces as
named record shapes and everything else as an alias body; only whether
the result starts with `interface` is inspected by the generator. -/
def schemaToTypeScript (schema : OpenApiSchema) (name : String)
    (_schemas : List (String × OpenApiSchema)) : String :=
  match schema.properties with
  | some props =>
    "interface " ++ name ++ " \x7b\n"
      ++ String.join (props.map (fun p => "  " ++ p.1 ++ ": " ++ tsTypeName p.2 ++ ";\n"))
      ++ "\x7d"
  | none => tsTypeName schema

/-! ### MAPI dependency resolution (`determineMapiDependencies`, skill.ts 307-331) -/

/-- Whitespace, the `\s` class of the source regex. -/
def isWsChar (c : Char) : Bool := c == ' ' || c == '\t' || c == '\n' || c == '\r'

/-- Word characters, the `\w` class of the source regex. -/
def isWordChar (c : Char) : Bool :=
  isAsciiLower c || isAsciiUpper c || c.isDigit || c == '_'

/-- Try to read `needle` literally at the head of `hay`, returning the
remainder on success. -/
def matchLit : List Char → List Char → Option (List Char)
  | [], hay => some hay
  | _ :: _, [] => none
  | n :: ns, h :: hs => if n == h then matchLit ns hs else none

/-- Try to match `kw` followed by one-or-more whitespace and a captured
word (`kw\s+(\w+)`) at the current position, returning the word and the
rest of the input. -/
def matchDeclKw (kw : List Char) (cs : List Char) : Option (String × List Char) :=
  match matchLit kw cs with
  | none => none
  | some rest =>
    let ws := rest.takeWhile isWsChar
    if ws.isEmpty then none
    else
      let afterWs := rest.drop ws.length
      let w := afterWs.takeWhile isWordChar
      if w.isEmpty then none else some (⟨w⟩, afterWs.drop w.length)

/-- One attempt of the alternation `interface\s+(\w+)|type\s+(\w+)` at the
current position. -/
def matchDecl (cs : List Char) : Option (String × List Char) :=
  (matchDeclKw "interface".data cs).orElse (fun _ => matchDeclKw "type".data cs)

/-- Left-to-right global scan of the regex
`/interface\s+(\w+)|type\s+(\w+)/g` over the global-types text, as one
pass with a structural fuel bounded by the text length (each step
consumes at least one character). -/
def scanTypeNamesAux : Nat → List Char → List String
  | 0, _ => []
  | _ + 1, [] => []
  | fuel + 1, c :: rest =>
    match matchDecl (c :: rest) with
    | some (name, rest') => name :: scanTypeNamesAux fuel rest'
    | none => scanTypeNamesAux fuel rest

/-- The declared type names the source extracts from the global-types
block (`globalTypes.match(...)` followed by taking the second token of
each match). -/
def scanTypeNames (text : String) : List String :=
  scanTypeNamesAux text.data.length text.data

/-- `determineMapiDependencies(cap, doc)` (skill.ts 307-331). -/
def determineMapiDependencies (cap : ParsedCapability) (doc : ParsedMapiDocument) :
    List String :=
  -- required auth on the capability, or no override while the document auth is not none
  let authDep : List String :=
    if (match cap.meta.auth with
        | some a => a == "required"
        | none => !(doc.meta.auth == some "none")) then ["auth"] else []
  let typesDep : List String :=
    match doc.globalTypes, cap.rawContent with
    | some g, some raw =>
      if g ≠ "" && raw ≠ "" then  -- `if (doc.globalTypes && cap.rawContent)`
        let typeNames := scanTypeNames g
        -- `if (typeMatches)` then the for-loop with `break`
        if typeNames ≠ [] && typeNames.any (fun n => containsSubstr raw n) then
          ["schemas/types"]
        else []
      else []
    | _, _ => []
  authDep ++ typesDep

/-! ### MAPI file generators (skill.ts 84-302) -/

/-- A `## Title` section with free-text content, rendered only when the
content is truthy (skill.ts 242-299). -/
def mdSection (title : String) (content : Option String) : List String :=
  match content with
  | some c => if c = "" then [] else ["## " ++ title, "", c, ""]
  | none => []

/-- A `## Title` section whose content is wrapped in a TypeScript fence
(skill.ts 258-275). -/
def mdCodeSection (title : String) (content : Option String) : List String :=
  match content with
  | some c => if c = "" then [] else ["## " ++ title, "", "```typescript", c, "```", ""]
  | none => []

/-- `generateCapabilityFile(cap)` (skill.ts 224-302). -/
def generateCapabilityFile (cap : ParsedCapability) : String :=
  let lines : List String :=
    ["# Capability: " ++ cap.name, ""]
    ++ ["~~~meta", "id: " ++ cap.meta.id, "transport: " ++ cap.meta.transport]
    ++ (if optTruthy cap.meta.auth then ["auth: " ++ cap.meta.auth.getD ""] else [])
    ++ (match cap.meta.idempotent with  -- `!== undefined`: `false` is still printed
        | some b => ["idempotent: " ++ (if b then "true" else "false")]
        | none => [])
    ++ (if optTruthy cap.meta.deprecated then
          ["deprecated: " ++ cap.meta.deprecated.getD ""] else [])
    ++ ["~~~", ""]
    ++ mdSection "Intention" cap.intention
    ++ mdSection "Auth Intention" cap.authIntention
    ++ mdCodeSection "Input" cap.input
    ++ mdCodeSection "Output" cap.output
    ++ mdSection "Logic Constraints" cap.logicConstraints
    ++ mdSection "Errors" cap.errors
    ++ mdSection "Example" cap.exampleText
  String.intercalate "\n" lines

/-- `generateAuthFile(meta)` (skill.ts 144-203). -/
def generateAuthFile (meta : MapiMeta) : String :=
  let authType := meta.auth.getD ""
  let body : List String :=
    if authType = "bearer" then
      ["This API uses Bearer token authentication.", "", "## Usage", "",
       "Include the token in the Authorization header:", "```",
       "Authorization: Bearer \x7btoken\x7d", "```"]
    else if authType = "api_key" then
      ["This API uses API key authentication.", "", "## Usage", "",
       "Include the API key in the `" ++ orElseStr meta.auth_header "X-API-Key" ++ "` header."]
    else if authType = "oauth2" then
      ["This API uses OAuth 2.0 authentication.", ""]
      ++ (if optTruthy meta.auth_flow then
            ["## Flow: " ++ meta.auth_flow.getD "", ""] else [])
      ++ (match meta.auth_scopes with  -- `if (meta.auth_scopes)` (a defined array is truthy)
          | some scopes => ["## Default Scopes", ""] ++ scopes.map (fun s => "- `" ++ s ++ "`")
          | none => [])
    else ["Authentication type: " ++ authType]
  let docsLines : List String :=
    if optTruthy meta.auth_docs_url then
      ["", "## Documentation", "",
       "See [Authentication Docs](" ++ meta.auth_docs_url.getD "" ++ ") for setup instructions."]
    else []
  String.intercalate "\n" (["# Authentication", ""] ++ body ++ docsLines ++ [""])

/-- `generateTypesFile(globalTypes)` (skill.ts 208-219). -/
def generateTypesFile (globalTypes : String) : String :=
  String.intercalate "\n"
    ["# Shared Types", "", "```typescript", globalTypes, "```", ""]

/-! ### The index document (`generateSkillMd`, skill.ts 84-139) -/

/-- The three metadata keys `generateSkillMd` renders. -/
structure SkillMeta where
  version : Option String
  base_url : Option String
  auth : Option String

/-- The description chosen for a common file by keyword match on its name
(skill.ts 117-119). -/
def commonFileDesc (file : String) : String :=
  if containsSubstr file "auth" then "Authentication setup"
  else if containsSubstr file "schema" then "Shared type definitions"
  else if containsSubstr file "pagination" then "Pagination conventions"
  else "Common definitions"

/-- One row of the capabilities table (skill.ts 131-135). -/
def capabilityRow (entry : CapabilityIndexEntry) : String :=
  let keywords := String.intercalate ", " (entry.intentKeywords.take 5)
  let joined := String.intercalate ", " entry.dependencies
  let deps := if joined = "" then "-" else joined  -- the joined list with a dash fallback
  "| " ++ entry.id ++ " | " ++ keywords ++ " | " ++ entry.filePath ++ " | " ++ deps ++ " |"

/-- `generateSkillMd` (skill.ts 84-139). -/
def generateSkillMd (apiName : String) (description : Option String) (meta : SkillMeta)
    (index : List CapabilityIndexEntry) (commonFiles : List String) : String :=
  let lines : List String :=
    ["# " ++ apiName, ""]
    ++ (if optTruthy description then [description.getD "", ""] else [])
    ++ ["~~~meta"]
    ++ (if optTruthy meta.version then ["version: " ++ meta.version.getD ""] else [])
    ++ (if optTruthy meta.base_url then ["base_url: " ++ meta.base_url.getD ""] else [])
    ++ (if optTruthy meta.auth then ["auth: " ++ meta.auth.getD ""] else [])
    ++ ["~~~", ""]
    ++ (if commonFiles.length > 0 then
          ["## Common Dependencies", "", "| File | Description |", "|------|-------------|"]
          ++ commonFiles.map (fun f => "| common/" ++ f ++ " | " ++ commonFileDesc f ++ " |")
          ++ [""]
        else [])
    ++ ["## Capabilities", "", "| ID | Intent Keywords | File | Dependencies |",
        "|----|-----------------|------|--------------|"]
    ++ index.map capabilityRow
    ++ [""]
  String.intercalate "\n" lines

/-! ### MAPI → Skill (`generateSkillFromMapi`, skill.ts 28-79) -/

/-- The keyword choice of skill.ts 53-58:
`if (options.intentGenerator && cap.intention)` use the external
generator, else the local extractor on `cap.intention || cap.name`. -/
def mapiKeywords (opts : ConvertOptions) (cap : ParsedCapability) : List String :=
  match opts.intentGenerator with
  | some g =>
    if optTruthy cap.intention then g cap.meta.id (cap.intention.getD "")
    else extractIntentKeywords (orElseStr cap.intention cap.name) cap.meta.id
  | none => extractIntentKeywords (orElseStr cap.intention cap.name) cap.meta.id

/-- The index entries accumulated by the capability loop of
`generateSkillFromMapi` (skill.ts 48-69); the iterations are independent,
so the loop is a map over `doc.capabilities` in document order. -/
def mapiIndex (doc : ParsedMapiDocument) (opts : ConvertOptions) :
    List CapabilityIndexEntry :=
  doc.capabilities.map (fun cap =>
    { id := cap.meta.id
      intentKeywords := mapiKeywords opts cap
      filePath := "capabilities/" ++ (cap.meta.id ++ ".md")
      dependencies := determineMapiDependencies cap doc })

/-- The `common` record of `generateSkillFromMapi` (skill.ts 37-45) in
insertion order. -/
def mapiCommon (doc : ParsedMapiDocument) : List (String × String) :=
  -- document auth present and different from none
  (if optTruthy doc.meta.auth && !(doc.meta.auth == some "none") then
     [("auth.md", generateAuthFile doc.meta)] else [])
  ++ (match doc.globalTypes with  -- `if (doc.globalTypes)`
      | some g => if g ≠ "" then [("schemas/types.md", generateTypesFile g)] else []
      | none => [])

/-- `generateSkillFromMapi(doc, options)` (skill.ts 28-79). -/
def generateSkillFromMapi (doc : ParsedMapiDocument)
    (opts : ConvertOptions := {}) : SkillOutput :=
  let common := mapiCommon doc
  { skillMd :=
      generateSkillMd (orElseStr opts.apiName doc.title) doc.description
        ⟨doc.meta.version, doc.meta.base_url, doc.meta.auth⟩
        (mapiIndex doc opts) (common.map Prod.fst)
    common := common
    capabilities :=
      doc.capabilities.map (fun cap => (cap.meta.id ++ ".md", generateCapabilityFile cap)) }

/-! ### OpenAPI → Skill (skill.ts 340-873) -/

/-- `op.security && op.security.length > 0` (skill.ts 513, 863). -/
def securityRequiresAuth (op : ParsedOpenApiOperation) : Bool :=
  match op.security with
  | some l => l.length > 0
  | none => false

/-- `determineOpenApiDependencies(op, doc)` (skill.ts 859-873): `auth`
when the operation carries a non-empty security list, `schemas/types`
whenever the document has any named schema at all. -/
def determineOpenApiDependencies (op : ParsedOpenApiOperation)
    (doc : ParsedOpenApiDocument) : List String :=
  (if securityRequiresAuth op then ["auth"] else [])
  ++ (if doc.schemas.length > 0 then ["schemas/types"] else [])

/-- `generateAuthFromOpenApi(doc)` (skill.ts 427-468).  The `!doc.auth`
branch returns early without the trailing blank line; an unknown auth
type falls through the `switch` adding nothing. -/
def generateAuthFromOpenApi (doc : ParsedOpenApiDocument) : String :=
  match doc.auth with
  | none => String.intercalate "\n" ["# Authentication", "", "No authentication required."]
  | some auth =>
    let body : List String :=
      if auth.type = "bearer" then
        ["This API uses Bearer token authentication.", "", "## Usage", "",
         "```", "Authorization: Bearer \x7btoken\x7d", "```"]
      else if auth.type = "api_key" then
        ["This API uses API key authentication."]
      else if auth.type = "oauth2" then
        ["This API uses OAuth 2.0 authentication."]
        ++ (match auth.flows with
            | some flows => ["", "## Flows", ""] ++ flows.map (fun f => "- " ++ f)
            | none => [])
      else []
    String.intercalate "\n" (["# Authentication", ""] ++ body ++ [""])

/-- `generateSchemasFromOpenApi(schemas)` (skill.ts 473-493). -/
def generateSchemasFromOpenApi (schemas : List (String × OpenApiSchema)) : String :=
  let entries : List String :=
    (schemas.map (fun p =>
      let ts := schemaToTypeScript p.2 p.1 schemas
      if ts.startsWith "interface" then [ts, ""]
      else ["type " ++ p.1 ++ " = " ++ ts ++ ";", ""])).flatten
  String.intercalate "\n" (["# Shared Types", "", "```typescript"] ++ entries ++ ["```"])

/-- `generateInputTableRows(schema, schemas, parentRequired)`
(skill.ts 618-644); `parentRequired` is accepted and unused, as in the
source. -/
def generateInputTableRows (schema : OpenApiSchema)
    (schemas : List (String × OpenApiSchema)) (_parentRequired : Bool) : List String :=
  -- `schemas[refName] || schema`
  let resolved :=
    match schema.ref with
    | some r => (jsLookup schemas (lastSegmentOr '/' r "")).getD schema
    | none => schema
  match resolved.properties with
  | some props =>
    let req := resolved.required.getD []
    props.map (fun p =>
      let isRequired := if req.contains p.1 then "yes" else "no"
      let typeInfo := getTypeDescriptionS p.2 schemas
      let desc := orElseStr p.2.description (orElseStr typeInfo.description "")
      "| " ++ p.1 ++ " | " ++ typeInfo.type ++ " | " ++ isRequired ++ " | " ++ desc ++ " |")
  | none => []

/-- `generateOutputTableRows(schema, schemas)` (skill.ts 649-671). -/
def generateOutputTableRows (schema : OpenApiSchema)
    (schemas : List (String × OpenApiSchema)) : List String :=
  let resolved :=
    match schema.ref with
    | some r => (jsLookup schemas (lastSegmentOr '/' r "")).getD schema
    | none => schema
  match resolved.properties with
  | some props =>
    props.map (fun p =>
      let typeInfo := getTypeDescriptionS p.2 schemas
      let desc := orElseStr p.2.description (orElseStr typeInfo.description "")
      "| " ++ p.1 ++ " | " ++ typeInfo.type ++ " | " ++ desc ++ " |")
  | none => []

/-- The `application/json` schema of a request body or response content
map (the optional chain down to the json schema of the content map). -/
def jsonSchemaOf (content : List (String × MediaObj)) : Option OpenApiSchema :=
  match jsLookup content "application/json" with
  | some media => media.schema
  | none => none

/-- `generateExample(op, doc)` (skill.ts 676-706): a request block when
the request-body schema synthesises a truthy value with at least one key,
then a response block for the first of the 200/201 responses, separated
by a blank line when both are present; `null` when neither produced
anything. -/
def generateExample (op : ParsedOpenApiOperation) (doc : ParsedOpenApiDocument) :
    Option String :=
  let requestLines : List String :=
    match op.requestBody with
    | some rb =>
      (match jsonSchemaOf rb.content with
       | some schema =>
         let ex := generateExampleFromSchema schema doc.schemas
         if jsTruthy ex && jsKeysLen ex > 0 then
           ["Request:", "```json", jsonStringify ex, "```"]
         else []
       | none => [])
    | none => []
  let success := (jsLookup op.responses "200").orElse (fun _ => jsLookup op.responses "201")
  let responseLines : List String :=
    match success with
    | some resp =>
      (match jsonSchemaOf resp.content with
       | some schema =>
         let ex := generateExampleFromSchema schema doc.schemas
         if jsTruthy ex && jsKeysLen ex > 0 then
           -- a blank separator line before the response block when a request block exists
           (if requestLines.length > 0 then [""] else [])
             ++ ["Response:", "```json", jsonStringify ex, "```"]
         else []
       | none => [])
    | none => []
  let lines := requestLines ++ responseLines
  if lines.length > 0 then some (String.intercalate "\n" lines) else none

/-- `generateCapabilityFromOperation(op, doc)` (skill.ts 498-576). -/
def generateCapabilityFromOperation (op : ParsedOpenApiOperation)
    (doc : ParsedOpenApiDocument) : String :=
  let capName := orElseStr op.summary op.operationId
  let paramRows : List String :=
    op.parameters.map (fun param =>
      let required := if param.required == some true then "yes" else "no"
      let typeInfo := getTypeDescription param.schema doc.schemas
      let desc := orElseStr param.description ("Parameter from " ++ param.location)
      "| " ++ param.name ++ " | " ++ typeInfo.type ++ " | " ++ required ++ " | "
        ++ orElseStr typeInfo.description desc ++ " |")
  let bodyRows : List String :=
    match op.requestBody with
    | some rb =>
      (match jsonSchemaOf rb.content with
       | some bodySchema =>
         generateInputTableRows bodySchema doc.schemas (rb.required.getD false)
       | none => [])
    | none => []
  let inputSection : List String :=
    -- `if (op.parameters?.length || op.requestBody)`
    if op.parameters.length > 0 || op.requestBody.isSome then
      ["## Input", "", "| Field | Type | Required | Description |",
       "|-------|------|----------|-------------|"]
      ++ paramRows ++ bodyRows ++ [""]
    else []
  let success :=
    ((jsLookup op.responses "200").orElse (fun _ => jsLookup op.responses "201")).orElse
      (fun _ => jsLookup op.responses "204")
  let outputSection : List String :=
    match success with
    | some resp =>
      (match jsonSchemaOf resp.content with
       | some outputSchema =>
         ["## Output", "", "| Field | Type | Description |", "|-------|------|-------------|"]
         ++ generateOutputTableRows outputSchema doc.schemas ++ [""]
       | none => [])
    | none => []
  let exampleSection : List String :=
    match generateExample op doc with
    | some ex => ["## Example", "", ex, ""]
    | none => []
  let lines : List String :=
    ["# Capability: " ++ capName, "", "~~~meta",
     "id: " ++ normalizeOperationId op.operationId,
     "transport: HTTP " ++ op.method ++ " " ++ op.path]
    ++ (if securityRequiresAuth op then ["auth: required"] else [])
    ++ ["~~~", "", "## Intention", "",
        orElseStr op.description
          (orElseStr op.summary ("Performs " ++ op.operationId ++ " operation.")), ""]
    ++ inputSection ++ outputSection ++ exampleSection
  String.intercalate "\n" lines

/-- The keyword choice of skill.ts 367-373: the external generator on the
normalized id and `op.description || op.summary || op.operationId` when
configured, else the local extractor. -/
def openApiKeywords (opts : ConvertOptions) (op : ParsedOpenApiOperation) : List String :=
  match opts.intentGenerator with
  | some g =>
    g (normalizeOperationId op.operationId)
      (orElseStr op.description (orElseStr op.summary op.operationId))
  | none => extractOpenApiIntentKeywords op

/-- The index entries accumulated by the operation loop of
`generateSkillFromOpenApi` (skill.ts 360-384); the iterations are
independent, so the loop is a map over `doc.operations` in document
order. -/
def openApiIndex (doc : ParsedOpenApiDocument) (opts : ConvertOptions) :
    List CapabilityIndexEntry :=
  doc.operations.map (fun op =>
    { id := normalizeOperationId op.operationId
      intentKeywords := openApiKeywords opts op
      filePath := "capabilities/" ++ (normalizeOperationId op.operationId ++ ".md")
      dependencies := determineOpenApiDependencies op doc })

/-- The `common` record of `generateSkillFromOpenApi` (skill.ts 349-357)
in insertion order. -/
def openApiCommon (doc : ParsedOpenApiDocument) : List (String × String) :=
  (match doc.auth with  -- `if (doc.auth)`
   | some _ => [("auth.md", generateAuthFromOpenApi doc)]
   | none => [])
  ++ (if doc.schemas.length > 0 then
        [("schemas/types.md", generateSchemasFromOpenApi doc.schemas)] else [])

/-- `generateSkillFromOpenApi(doc, options)` (skill.ts 340-400). -/
def generateSkillFromOpenApi (doc : ParsedOpenApiDocument)
    (opts : ConvertOptions := {}) : SkillOutput :=
  let common := openApiCommon doc
  let meta : SkillMeta :=
    { version := doc.version
      base_url := doc.baseUrl
      -- the document auth type with a none fallback
      auth := some (match doc.auth with
                    | some a => if a.type = "" then "none" else a.type
                    | none => "none") }
  { skillMd :=
      generateSkillMd (orElseStr opts.apiName doc.title) doc.description meta
        (openApiIndex doc opts) (common.map Prod.fst)
    common := common
    capabilities :=
      doc.operations.map (fun op =>
        (normalizeOperationId op.operationId ++ ".md",
         generateCapabilityFromOperation op doc)) }

/-! ### Basic lemmas about example synthesis -/

/-- `genPropsWith` only depends on the pointwise behaviour of the
synthesis function it is given. -/
theorem genPropsWith_congr {g₁ g₂ : OpenApiSchema → Option String → JsonVal}
    (hg : ∀ ps pn, g₁ ps pn = g₂ ps pn) (required : List String)
    (props : List (String × OpenApiSchema)) (acc : List (String × JsonVal)) :
    genPropsWith g₁ required props acc = genPropsWith g₂ required props acc := by
  induction props generalizing acc with
  | nil => rfl
  | cons p rest ih =>
    obtain ⟨name, ps⟩ := p
    simp only [genPropsWith, hg]
    split
    · split
      · exact ih _
      · exact ih _
    · exact ih _

/-- The fuel of `genAux` is semantically inert: any two fuels beyond the
residual depth budget (`4 - depth`) give the same result, since every
recursive call increments `depth` and the guard fires at `depth > 3`. -/
theorem genAux_fuel : ∀ (f₁ f₂ : Nat) (s : OpenApiSchema)
    (t : List (String × OpenApiSchema)) (d : Nat) (p : Option String),
    4 - d < f₁ → 4 - d < f₂ → genAux f₁ s t d p = genAux f₂ s t d p := by
  intro f₁
  induction f₁ with
  | zero => intro f₂ s t d p h₁ h₂; omega
  | succ f₁ ih =>
    intro f₂ s t d p h₁ h₂
    cases f₂ with
    | zero => omega
    | succ f₂ =>
      by_cases hd : d > 3
      · simp only [genAux, if_pos hd]
      · have hrec : ∀ s' p', genAux f₁ s' t (d + 1) p' = genAux f₂ s' t (d + 1) p' :=
          fun s' p' => ih f₂ s' t (d + 1) p' (by omega) (by omega)
        simp only [genAux, if_neg hd]
        simp only [hrec]

/-- Past the depth ceiling the synthesiser returns `null` whatever the
fuel. -/
theorem genAux_ceiling (fuel : Nat) (schema : OpenApiSchema)
    (schemas : List (String × OpenApiSchema)) (depth : Nat) (propName : Option String)
    (h : 3 < depth) : genAux fuel schema schemas depth propName = JsonVal.null := by
  cases fuel with
  | zero => rfl
  | succ fuel => simp only [genAux, if_pos h]

/-! ### Claim C1: termination and the depth ceiling -/

/-- A named object schema that references itself through its `next`
property (a reference cycle of length 1). -/
def cycNodeSchema : OpenApiSchema :=
  ⟨none, some "object",
   some [("next", ⟨some "#/components/schemas/Node", none, none, none, none, none,
                   none, none, none, none⟩),
         ("val", ⟨none, some "integer", none, none, none, none, none, none, none, none⟩)],
   none, none, none, none, none, none, none⟩

/-- A schema table containing the self-referential schema. -/
def cycTable : List (String × OpenApiSchema) := [("Node", cycNodeSchema)]

/-- A root schema node referencing the self-referential named schema. -/
def cycRefNode : OpenApiSchema :=
  ⟨some "#/components/schemas/Node", none, none, none, none, none, none, none, none, none⟩

/-- Claim C1: `generateExampleFromSchema` is a total function on every
schema node, named-schema table (including a table whose schema
references itself) and starting depth — it is defined in Lean by a
terminating recursion, so it always returns a finite `JsonVal` — and it
returns the empty/absent value `null` as soon as the depth exceeds the
hard ceiling of 3; on the cyclic table it terminates with a concrete
finite structure. -/
theorem exampleSynthesis_depth_ceiling :
    (∀ (schema : OpenApiSchema) (schemas : List (String × OpenApiSchema))
       (depth : Nat) (propName : Option String), 3 < depth →
       generateExampleFromSchema schema schemas depth propName = JsonVal.null)
    ∧ generateExampleFromSchema cycRefNode cycTable 0 none
        = JsonVal.obj [("next", JsonVal.obj []), ("val", JsonVal.num 100)] := by
  constructor
  · intro schema schemas depth propName h
    exact genAux_ceiling 5 schema schemas depth propName h
  · rfl

/-- Witness for C1 at a concrete input: on the self-referential table at
depth 4 the synthesiser returns `null`. -/
theorem exampleSynthesis_depth_ceiling_witness :
    generateExampleFromSchema cycRefNode cycTable 4 none = JsonVal.null :=
  exampleSynthesis_depth_ceiling.1 cycRefNode cycTable 4 none (by norm_num)

/-! ### Claim C2: operation-id normalisation -/

/-- Claim C2: `normalizeOperationId` lowercases dotted identifiers
unchanged; otherwise it inserts a dot at each lowercase-to-uppercase
transition, lowercases, and converts only the first remaining underscore
to a dot; in particular on the three identifiers named by the spec. -/
theorem normalizeOperationId_spec :
    (∀ s : String, s.data.contains '.' = true →
       normalizeOperationId s = jsToLowerStr s)
    ∧ (∀ s : String, s.data.contains '.' = false →
       normalizeOperationId s
         = ⟨replaceFirstUnderscoreL ((insertCamelDotsL s.data).map Char.toLower)⟩)
    ∧ normalizeOperationId "messages_count_tokens" = "messages.count_tokens"
    ∧ normalizeOperationId "getUserProfile" = "get.user.profile"
    ∧ normalizeOperationId "Already.Dotted" = "already.dotted" := by
  refine ⟨?_, ?_, by decide, by decide, by decide⟩
  · intro s h
    simp only [normalizeOperationId, h, eq_self_iff_true, if_true]
  · intro s h
    simp only [normalizeOperationId, h, Bool.false_eq_true, if_false]

/-- Witness for C2 at a concrete input: a dotted identifier is lowercased
unchanged. -/
theorem normalizeOperationId_spec_witness :
    normalizeOperationId "Users.List" = jsToLowerStr "Users.List" :=
  normalizeOperationId_spec.1 "Users.List" (by decide)

/-! ### Claim C8: the shared-types dependency for OpenAPI operations -/

/-- Claim C8: for every OpenAPI operation, the dependency list contains
`schemas/types` exactly when the named-schema table of the document is
non-empty, independently of the operation itself. -/
theorem schemasTypes_dependency_iff (op : ParsedOpenApiOperation)
    (doc : ParsedOpenApiDocument) :
    "schemas/types" ∈ determineOpenApiDependencies op doc ↔ doc.schemas ≠ [] := by
  unfold determineOpenApiDependencies
  by_cases hs : doc.schemas.length > 0
  · have hne : doc.schemas ≠ [] := by
      intro h
      rw [h] at hs
      simp at hs
    by_cases ha : securityRequiresAuth op = true <;> simp [hs, ha, hne]
  · have he : doc.schemas = [] := by
      cases h : doc.schemas with
      | nil => rfl
      | cons a l => rw [h] at hs; simp at hs
    by_cases ha : securityRequiresAuth op = true <;> simp [hs, ha, he]

/-! ### Claim C9: determinism of generation -/

/-- Claim C9: for a fixed parsed document and fixed options (the external
keyword provider, when present, is a pure deterministic function in this
model, matching the stubbed-provider reading of the claim), two
invocations of either generator produce identical artifact sets — the
same index body, the same common-file mapping and the same
capability-file mapping.  Both generators are embedded as pure functions
because the source computes from its arguments only (no clock, randomness
or ambient state), so the two runs agree by reflexivity. -/
theorem generators_deterministic (mdoc : ParsedMapiDocument)
    (odoc : ParsedOpenApiDocument) (opts : ConvertOptions) :
    ((generateSkillFromMapi mdoc opts).skillMd = (generateSkillFromMapi mdoc opts).skillMd
     ∧ (generateSkillFromMapi mdoc opts).common = (generateSkillFromMapi mdoc opts).common
     ∧ (generateSkillFromMapi mdoc opts).capabilities
         = (generateSkillFromMapi mdoc opts).capabilities)
    ∧ ((generateSkillFromOpenApi odoc opts).skillMd
         = (generateSkillFromOpenApi odoc opts).skillMd
     ∧ (generateSkillFromOpenApi odoc opts).common
         = (generateSkillFromOpenApi odoc opts).common
     ∧ (generateSkillFromOpenApi odoc opts).capabilities
         = (generateSkillFromOpenApi odoc opts).capabilities) :=
  ⟨⟨rfl, rfl, rfl⟩, ⟨rfl, rfl, rfl⟩⟩

/-! ### Claim C10: every index entry points at an emitted capability file -/

/-- Claim C10: in both generators, the `filePath` of each index entry is
`capabilities/` followed by a key of the returned capability-file
mapping, so the index never references a missing capability file. -/
theorem indexFilePaths_resolve :
    (∀ (doc : ParsedMapiDocument) (opts : ConvertOptions) (e : CapabilityIndexEntry),
       e ∈ mapiIndex doc opts →
       ∃ k ∈ ((generateSkillFromMapi doc opts).capabilities).map Prod.fst,
         e.filePath = "capabilities/" ++ k)
    ∧ (∀ (doc : ParsedOpenApiDocument) (opts : ConvertOptions) (e : CapabilityIndexEntry),
       e ∈ openApiIndex doc opts →
       ∃ k ∈ ((generateSkillFromOpenApi doc opts).capabilities).map Prod.fst,
         e.filePath = "capabilities/" ++ k) := by
  constructor
  · intro doc opts e he
    simp only [mapiIndex, List.mem_map] at he
    obtain ⟨cap, hcap, rfl⟩ := he
    refine ⟨cap.meta.id ++ ".md", ?_, rfl⟩
    simp only [generateSkillFromMapi, List.map_map, List.mem_map, Function.comp]
    exact ⟨cap, hcap, rfl⟩
  · intro doc opts e he
    simp only [openApiIndex, List.mem_map] at he
    obtain ⟨op, hop, rfl⟩ := he
    refine ⟨normalizeOperationId op.operationId ++ ".md", ?_, rfl⟩
    simp only [generateSkillFromOpenApi, List.map_map, List.mem_map, Function.comp]
    exact ⟨op, hop, rfl⟩

/-- A minimal concrete MAPI capability used by several witnesses. -/
def wCap : ParsedCapability :=
  { meta := { id := "msgs.create", transport := "HTTP POST /v1/messages",
              auth := none, idempotent := none, deprecated := none }
    name := "Create Message"
    intention := some "send a message"
    authIntention := none, input := none, output := none
    logicConstraints := none, errors := none, exampleText := none
    rawContent := some "POST /v1/messages" }

/-- A minimal concrete MAPI document with a bearer auth scheme. -/
def wMapiDoc : ParsedMapiDocument :=
  { title := "Demo API"
    description := none
    meta := { version := some "1.0.0", base_url := none, auth := some "bearer",
              auth_header := none, auth_flow := none, auth_scopes := none,
              auth_docs_url := none }
    globalTypes := none
    capabilities := [wCap] }

/-- The index entry the MAPI generator derives from `wCap`. -/
def wEntry : CapabilityIndexEntry :=
  { id := "msgs.create"
    intentKeywords := ["send", "a", "message"]
    filePath := "capabilities/msgs.create.md"
    dependencies := ["auth"] }

/-- Witness for C10 at a concrete input: the single index entry of
`wMapiDoc` resolves to an emitted capability file. -/
theorem indexFilePaths_resolve_witness :
    ∃ k ∈ ((generateSkillFromMapi wMapiDoc {}).capabilities).map Prod.fst,
      wEntry.filePath = "capabilities/" ++ k :=
  indexFilePaths_resolve.1 wMapiDoc {} wEntry (by decide)

/-! ### Claim C4: the `auth` dependency -/

/-- An OpenAPI operation with no per-operation security requirement. -/
def cexOp4 : ParsedOpenApiOperation :=
  { operationId := "listThings", method := "GET", path := "/things"
    summary := none, description := none, parameters := []
    requestBody := none, responses := [], security := none }

/-- An OpenAPI document declaring a bearer auth scheme and containing
`cexOp4`. -/
def cexDoc4 : ParsedOpenApiDocument :=
  { title := "Things API", description := none, version := none, baseUrl := none
    auth := some { type := "bearer", flows := none }
    schemas := [], operations := [cexOp4] }

/-- Counterexample to C4 as stated: `cexDoc4` declares the auth scheme
`bearer` (not `"none"`) and `cexOp4` carries no per-operation auth
override, yet the OpenAPI dependency resolver does not put `auth` in the
dependency list of the operation — it only consults `op.security`. -/
theorem openApiAuthDependency_counterexample :
    cexDoc4.auth = some { type := "bearer", flows := none }
    ∧ cexOp4.security = none
    ∧ "auth" ∉ determineOpenApiDependencies cexOp4 cexDoc4 := by
  refine ⟨rfl, rfl, ?_⟩
  decide

/-- Claim C4 (amended): for MAPI capabilities the rule holds as claimed —
`auth` is a dependency when the own auth of the capability is marked
`required`, or when it has no override and the document auth scheme is
not `"none"`; for OpenAPI operations, however, `auth` is in the
dependency list exactly when the description, summary or identifier of the operation own security list is
non-empty, with no fallback to the document-level auth scheme. -/
theorem authDependency_rules :
    (∀ (cap : ParsedCapability) (doc : ParsedMapiDocument),
       (cap.meta.auth = some "required"
         ∨ (cap.meta.auth = none ∧ doc.meta.auth ≠ some "none")) →
       "auth" ∈ determineMapiDependencies cap doc)
    ∧ (∀ (op : ParsedOpenApiOperation) (doc : ParsedOpenApiDocument),
       "auth" ∈ determineOpenApiDependencies op doc ↔ securityRequiresAuth op = true) := by
  constructor
  · intro cap doc h
    unfold determineMapiDependencies
    have hcond : (match cap.meta.auth with
        | some a => a == "required"
        | none => !(doc.meta.auth == some "none")) = true := by
      rcases h with h | ⟨h1, h2⟩
      · rw [h]
        simp
      · rw [h1]
        simpa using h2
    rw [hcond]
    simp
  · intro op doc
    unfold determineOpenApiDependencies
    by_cases ha : securityRequiresAuth op = true
      <;> by_cases hs : doc.schemas.length > 0
      <;> simp [ha, hs]

/-- Witness for C4 (amended) at a concrete input: `wCap` has no auth
override and `wMapiDoc` declares `bearer`, so its dependencies contain
`auth`. -/
theorem authDependency_rules_witness :
    "auth" ∈ determineMapiDependencies wCap wMapiDoc :=
  authDependency_rules.1 wCap wMapiDoc (Or.inr ⟨rfl, by decide⟩)

/-! ### Claim C6: uniqueness of index identifiers -/

/-- Two operations whose distinct raw operationIds normalise to the same
string (`getUser` and `get_user` both become `get.user`). -/
def cexOp6a : ParsedOpenApiOperation :=
  { operationId := "getUser", method := "GET", path := "/user"
    summary := none, description := none, parameters := []
    requestBody := none, responses := [], security := none }

def cexOp6b : ParsedOpenApiOperation :=
  { operationId := "get_user", method := "GET", path := "/user2"
    summary := none, description := none, parameters := []
    requestBody := none, responses := [], security := none }

/-- A document containing the two colliding operations. -/
def cexDoc6 : ParsedOpenApiDocument :=
  { title := "Collide API", description := none, version := none, baseUrl := none
    auth := none, schemas := [], operations := [cexOp6a, cexOp6b] }

/-- Counterexample to C6 as stated: the two raw operationIds are
distinct, but the generated index carries the id `get.user` twice, so
the ids are not pairwise distinct. -/
theorem indexIds_collision_counterexample :
    cexOp6a.operationId ≠ cexOp6b.operationId
    ∧ (openApiIndex cexDoc6 {}).map (fun e => e.id) = ["get.user", "get.user"]
    ∧ ¬ ((openApiIndex cexDoc6 {}).map (fun e => e.id)).Nodup := by
  refine ⟨by decide, by decide, by decide⟩

/-- Claim C6 (amended): the index ids are exactly the capability ids
(MAPI) respectively the normalised operationIds (OpenAPI) in document
order; they are pairwise distinct exactly when those are, and in
particular distinct raw operationIds that normalise to the same string
produce duplicate index ids. -/
theorem indexIds_characterization :
    (∀ (doc : ParsedOpenApiDocument) (opts : ConvertOptions),
       (openApiIndex doc opts).map (fun e => e.id)
         = doc.operations.map (fun op => normalizeOperationId op.operationId))
    ∧ (∀ (doc : ParsedMapiDocument) (opts : ConvertOptions),
       (mapiIndex doc opts).map (fun e => e.id)
         = doc.capabilities.map (fun c => c.meta.id))
    ∧ (∀ (doc : ParsedOpenApiDocument) (opts : ConvertOptions),
       (doc.operations.map (fun op => normalizeOperationId op.operationId)).Nodup →
       ((openApiIndex doc opts).map (fun e => e.id)).Nodup) := by
  have h1 : ∀ (doc : ParsedOpenApiDocument) (opts : ConvertOptions),
      (openApiIndex doc opts).map (fun e => e.id)
        = doc.operations.map (fun op => normalizeOperationId op.operationId) := by
    intro doc opts
    simp only [openApiIndex, List.map_map]
    rfl
  refine ⟨h1, ?_, ?_⟩
  · intro doc opts
    simp only [mapiIndex, List.map_map]
    rfl
  · intro doc opts h
    rw [h1 doc opts]
    exact h

/-- Witness for C6 (amended) at a concrete input: a document whose
normalised ids are distinct yields a duplicate-free index. -/
def wOp6c : ParsedOpenApiOperation :=
  { operationId := "createUser", method := "POST", path := "/user"
    summary := none, description := none, parameters := []
    requestBody := none, responses := [], security := none }

def wDoc6 : ParsedOpenApiDocument :=
  { title := "Users API", description := none, version := none, baseUrl := none
    auth := none, schemas := [], operations := [cexOp6a, wOp6c] }

theorem indexIds_characterization_witness :
    ((openApiIndex wDoc6 {}).map (fun e => e.id)).Nodup :=
  indexIds_characterization.2.2 wDoc6 {} (by decide)

/-! ### Claim C5: numeric primitives — minimum versus name heuristics -/

/-- An integer schema node with an optional declared minimum and no other
fields. -/
def intMinSchema (min : Option ℚ) : OpenApiSchema :=
  ⟨none, some "integer", none, none, none, none, none, none, none, min⟩

/-- A number schema node with an optional declared minimum and no other
fields. -/
def numMinSchema (min : Option ℚ) : OpenApiSchema :=
  ⟨none, some "number", none, none, none, none, none, none, none, min⟩

/-- Counterexample to C5 as stated: an integer field named `max_tokens`
with declared minimum 1 synthesises `1024` (the name heuristic), not the
declared minimum. -/
theorem integerMinimum_counterexample :
    (intMinSchema (some 1)).minimum = some 1
    ∧ generateExampleFromSchema (intMinSchema (some 1)) [] 0 (some "max_tokens")
        = JsonVal.num 1024
    ∧ JsonVal.num 1024 ≠ JsonVal.num 1 := by
  refine ⟨rfl, rfl, ?_⟩
  intro h
  injection h with h'
  exact absurd h' (by norm_num)

/-- Claim C5 (amended): for integer and number nodes with no explicit
example, the name-keyed heuristics are consulted *first* — an integer
field whose lowercased name contains `token` yields 1024 and a number
field named `temperature` yields 0.7 even when a minimum is declared —
and only otherwise does a declared minimum win, before the generic
defaults (100 for integers, 1.0 for numbers). -/
theorem numericExample_precedence (schemas : List (String × OpenApiSchema))
    (depth : Nat) (min : Option ℚ) (n : String) (hd : depth ≤ 3) :
    (generateExampleFromSchema (intMinSchema min) schemas depth (some n)
       = (if n ≠ "" ∧ containsSubstr (jsToLowerStr n) "token" = true then JsonVal.num 1024
          else match min with
               | some m => JsonVal.num m
               | none => JsonVal.num 100))
    ∧ (generateExampleFromSchema (numMinSchema min) schemas depth (some n)
       = (if jsToLowerStr n = "temperature" then JsonVal.num (7 / 10)
          else match min with
               | some m => JsonVal.num m
               | none => JsonVal.num 1)) := by
  constructor
  · show genAux 5 (intMinSchema min) schemas depth (some n) = _
    rw [show (5 : Nat) = 4 + 1 from rfl]
    simp only [genAux, if_neg (by omega : ¬ depth > 3)]
    show genPrimitive (intMinSchema min) (some n) = _
    simp only [genPrimitive, intMinSchema, OpenApiSchema.type, OpenApiSchema.minimum,
      OpenApiSchema.format]
    by_cases hn : n = ""
    · simp [hn]
    · simp only [if_neg hn]
      by_cases hc : containsSubstr (jsToLowerStr n) "token" = true
      · simp [hn, hc]
      · simp only [hc, Bool.false_eq_true, if_false]
        by_cases hm : jsToLowerStr n = "max_tokens"
        · rw [hm] at hc
          exact absurd (by decide : containsSubstr "max_tokens" "token" = true) hc
        · simp [hn, hc, hm]
  · show genAux 5 (numMinSchema min) schemas depth (some n) = _
    rw [show (5 : Nat) = 4 + 1 from rfl]
    simp only [genAux, if_neg (by omega : ¬ depth > 3)]
    show genPrimitive (numMinSchema min) (some n) = _
    simp only [genPrimitive, numMinSchema, OpenApiSchema.type, OpenApiSchema.minimum,
      OpenApiSchema.format]

/-- Witness for C5 (amended) at a concrete input: an integer field named
`count` with declared minimum 5 synthesises the minimum. -/
theorem numericExample_precedence_witness :
    generateExampleFromSchema (intMinSchema (some 5)) [] 0 (some "count")
      = JsonVal.num 5 := by
  have h := (numericExample_precedence [] 0 (some 5) "count" (by norm_num)).1
  rw [if_neg (by decide)] at h
  exact h

/-! ### Claim C7: unresolvable references degrade to an empty object -/

/-- A schema node with a dangling reference and an explicit example. -/
def cexDangling : OpenApiSchema :=
  ⟨some "#/components/schemas/Missing", none, none, none, none, none, none, none,
   some (JsonVal.num 42), none⟩

/-- Counterexample to C7 as stated: a node carrying a `$ref` whose target
is absent from the table, but also an explicit `example`, synthesises the
example (the example check precedes reference resolution), not the empty
object shape. -/
theorem danglingRef_counterexample :
    cexDangling.ref = some "#/components/schemas/Missing"
    ∧ jsLookup ([] : List (String × OpenApiSchema))
        (lastSegmentOr '/' "#/components/schemas/Missing" "") = none
    ∧ generateExampleFromSchema cexDangling [] 0 none = JsonVal.num 42
    ∧ JsonVal.num 42 ≠ JsonVal.obj [] := by
  refine ⟨rfl, rfl, rfl, ?_⟩
  intro h
  cases h

/-- Claim C7 (amended): a schema node carrying a `$ref` whose target name
is absent from the named-schema table, *with no explicit example on the
node* and at a depth within the recursion ceiling, synthesises the empty
object shape `{}` — silently, with no error value of any kind. -/
theorem danglingRef_empty_object (schemas : List (String × OpenApiSchema))
    (depth : Nat) (propName : Option String) (rname : String)
    (ty : Option String) (props : Option (List (String × OpenApiSchema)))
    (req : Option (List String)) (items : Option OpenApiSchema)
    (en : Option (List JsonVal)) (fmt desc : Option String) (min : Option ℚ)
    (hd : depth ≤ 3)
    (hmiss : jsLookup schemas (lastSegmentOr '/' rname "") = none) :
    generateExampleFromSchema
        ⟨some rname, ty, props, req, items, en, fmt, desc, none, min⟩
        schemas depth propName
      = JsonVal.obj [] := by
  show genAux 5 _ schemas depth propName = _
  rw [show (5 : Nat) = 4 + 1 from rfl]
  simp only [genAux, if_neg (by omega : ¬ depth > 3), OpenApiSchema.exampleVal,
    OpenApiSchema.ref, hmiss]

/-- Witness for C7 (amended) at a concrete input. -/
theorem danglingRef_empty_object_witness :
    generateExampleFromSchema
        ⟨some "#/x/Missing", none, none, none, none, none, none, none, none, none⟩
        [] 0 none
      = JsonVal.obj [] :=
  danglingRef_empty_object [] 0 none "#/x/Missing" none none none none none none none
    none (by norm_num) rfl

/-! ### Claim C3: the field cap of object synthesis -/

/-- An object schema node with the given property list and required set
and no other fields. -/
def mkObjectSchema (props : List (String × OpenApiSchema))
    (required : List String) : OpenApiSchema :=
  ⟨none, some "object", some props, some required, none, none, none, none, none, none⟩

/-- A bare string schema node. -/
def strSchema : OpenApiSchema :=
  ⟨none, some "string", none, none, none, none, none, none, none, none⟩

/-- An object schema with 5 optional string properties listed before its
3 required ones. -/
def cexObjSchema : OpenApiSchema :=
  mkObjectSchema
    [("o1", strSchema), ("o2", strSchema), ("o3", strSchema), ("o4", strSchema),
     ("o5", strSchema), ("r1", strSchema), ("r2", strSchema), ("r3", strSchema)]
    ["r1", "r2", "r3"]

/-- Counterexample to C3 as stated: on an object schema with 3 required
and 10 optional properties the claim promises at most 5 fields with at
most 2 optional ones, for *any* property order; but when the optional
properties come first the loop admits five optional fields (each seen
while fewer than 5 fields were accumulated) and then all required ones,
producing 8 fields — more than 5 in total and more than 2 optional. -/
theorem exampleObject_cap_counterexample :
    generateExampleFromSchema cexObjSchema [] 0 none
      = JsonVal.obj
          [("o1", JsonVal.str "string"), ("o2", JsonVal.str "string"),
           ("o3", JsonVal.str "string"), ("o4", JsonVal.str "string"),
           ("o5", JsonVal.str "string"), ("r1", JsonVal.str "string"),
           ("r2", JsonVal.str "string"), ("r3", JsonVal.str "string")]
    ∧ ¬ (jsKeysLen (generateExampleFromSchema cexObjSchema [] 0 none) ≤ 5) := by
  refine ⟨rfl, by decide⟩

/-- Unfolding of `generateExampleFromSchema` on an object schema below
the ceiling, expressed in terms of the function itself via fuel
irrelevance. -/
theorem exampleObject_unfold (props : List (String × OpenApiSchema))
    (required : List String) (schemas : List (String × OpenApiSchema))
    (depth : Nat) (hd : depth ≤ 3) :
    generateExampleFromSchema (mkObjectSchema props required) schemas depth none
      = JsonVal.obj (genPropsWith
          (fun ps pn => generateExampleFromSchema ps schemas (depth + 1) pn)
          required props []) := by
  have hfuel : ∀ (s' : OpenApiSchema) (p' : Option String),
      genAux 4 s' schemas (depth + 1) p' = genAux 5 s' schemas (depth + 1) p' :=
    fun s' p' => genAux_fuel 4 5 s' schemas (depth + 1) p' (by omega) (by omega)
  show genAux 5 _ schemas depth none = _
  rw [show (5 : Nat) = 4 + 1 from rfl]
  simp only [genAux, if_neg (by omega : ¬ depth > 3)]
  show JsonVal.obj (genPropsWith (fun ps pn => genAux 4 ps schemas (depth + 1) pn)
        required props []) = _
  exact congrArg JsonVal.obj (genPropsWith_congr (fun ps pn => hfuel ps pn) required props [])

/-- Processing a block of required properties whose values are non-null
appends them all, in order, to the accumulator. -/
theorem genPropsWith_append_required
    (g : OpenApiSchema → Option String → JsonVal) (required : List String)
    (reqProps rest : List (String × OpenApiSchema)) (acc : List (String × JsonVal))
    (hreq : ∀ p ∈ reqProps, required.contains p.1 = true)
    (hnn : ∀ p ∈ reqProps, jsIsNull (g p.2 (some p.1)) = false) :
    genPropsWith g required (reqProps ++ rest) acc
      = genPropsWith g required rest
          (acc ++ reqProps.map (fun p => (p.1, g p.2 (some p.1)))) := by
  induction reqProps generalizing acc with
  | nil => simp
  | cons p ps ih =>
    obtain ⟨name, psch⟩ := p
    have h1 : required.contains name = true := hreq _ (List.mem_cons_self _ _)
    have h2 : jsIsNull (g psch (some name)) = false := hnn _ (List.mem_cons_self _ _)
    simp only [List.cons_append, genPropsWith, h1, Bool.true_or, if_true, h2,
      Bool.false_eq_true, if_false, List.append_eq]
    rw [ih (acc ++ [(name, g psch (some name))])
        (fun q hq => hreq q (List.mem_cons_of_mem _ hq))
        (fun q hq => hnn q (List.mem_cons_of_mem _ hq))]
    simp

/-- Processing a block of properties none of which is required can add at
most `5 - acc.length` further fields after the accumulator. -/
theorem genPropsWith_optional_bound
    (g : OpenApiSchema → Option String → JsonVal) (required : List String)
    (props : List (String × OpenApiSchema)) (acc : List (String × JsonVal))
    (hopt : ∀ p ∈ props, required.contains p.1 = false) :
    ∃ tail, genPropsWith g required props acc = acc ++ tail
      ∧ tail.length ≤ 5 - acc.length := by
  induction props generalizing acc with
  | nil => exact ⟨[], by simp [genPropsWith], by simp⟩
  | cons p ps ih =>
    obtain ⟨name, psch⟩ := p
    have h1 : required.contains name = false := hopt _ (List.mem_cons_self _ _)
    have hopt' : ∀ q ∈ ps, required.contains q.1 = false :=
      fun q hq => hopt q (List.mem_cons_of_mem _ hq)
    simp only [genPropsWith, h1, Bool.false_or]
    by_cases hlen : acc.length < 5
    · simp only [hlen, decide_True, if_true]
      by_cases hnull : jsIsNull (g psch (some name)) = true
      · simp only [hnull, if_true]
        exact ih acc hopt'
      · simp only [hnull, if_false]
        obtain ⟨tail, heq, hb⟩ := ih (acc ++ [(name, g psch (some name))]) hopt'
        refine ⟨(name, g psch (some name)) :: tail, ?_, ?_⟩
        · rw [heq]
          simp
        · simp only [List.length_append, List.length_singleton] at hb
          simp only [List.length_cons]
          omega
    · simp only [hlen, decide_False, if_false]
      exact ih acc hopt'

/-- Claim C3 (amended): the loop admits a field when it is required or
fewer than 5 fields are accumulated so far, checked in property order; so
for an object schema whose required properties are listed *before* its
optional ones and whose required values synthesise non-null, the example
contains all required fields first, followed by at most `5 - #required`
optional fields — in particular 3 required properties followed by 10
optional ones give all 3 required fields and at most 2 optional ones. -/
theorem exampleObject_required_first_cap
    (schemas : List (String × OpenApiSchema)) (depth : Nat) (required : List String)
    (reqProps optProps : List (String × OpenApiSchema))
    (hd : depth ≤ 3)
    (hreq : ∀ p ∈ reqProps, required.contains p.1 = true)
    (hopt : ∀ p ∈ optProps, required.contains p.1 = false)
    (hnn : ∀ p ∈ reqProps,
      jsIsNull (generateExampleFromSchema p.2 schemas (depth + 1) (some p.1)) = false) :
    ∃ tail : List (String × JsonVal),
      generateExampleFromSchema (mkObjectSchema (reqProps ++ optProps) required)
          schemas depth none
        = JsonVal.obj
            ((reqProps.map (fun p =>
               (p.1, generateExampleFromSchema p.2 schemas (depth + 1) (some p.1)))) ++ tail)
      ∧ tail.length ≤ 5 - reqProps.length := by
  rw [exampleObject_unfold (reqProps ++ optProps) required schemas depth hd]
  rw [genPropsWith_append_required _ required reqProps optProps [] hreq hnn]
  obtain ⟨tail, heq, hb⟩ :=
    genPropsWith_optional_bound
      (fun ps pn => generateExampleFromSchema ps schemas (depth + 1) pn)
      required optProps
      ([] ++ reqProps.map (fun p =>
        (p.1, generateExampleFromSchema p.2 schemas (depth + 1) (some p.1)))) hopt
  refine ⟨tail, ?_, ?_⟩
  · rw [heq]
    simp
  · simpa using hb

/-- Witness for C3 (amended) at a concrete input: 3 required string
properties listed before 10 optional ones. -/
def wReqProps : List (String × OpenApiSchema) :=
  [("r1", strSchema), ("r2", strSchema), ("r3", strSchema)]

def wOptProps : List (String × OpenApiSchema) :=
  [("o1", strSchema), ("o2", strSchema), ("o3", strSchema), ("o4", strSchema),
   ("o5", strSchema), ("o6", strSchema), ("o7", strSchema), ("o8", strSchema),
   ("o9", strSchema), ("o10", strSchema)]

theorem exampleObject_required_first_cap_witness :
    ∃ tail : List (String × JsonVal),
      generateExampleFromSchema (mkObjectSchema (wReqProps ++ wOptProps) ["r1", "r2", "r3"])
          [] 0 none
        = JsonVal.obj
            ((wReqProps.map (fun p =>
               (p.1, generateExampleFromSchema p.2 [] 1 (some p.1)))) ++ tail)
      ∧ tail.length ≤ 5 - wReqProps.length :=
  exampleObject_required_first_cap [] 0 ["r1", "r2", "r3"] wReqProps wOptProps
    (by norm_num) (by decide) (by decide) (by decide)

end MapiSkill
